import Mathlib

/-!
Verification of the room-cast chat server's core (room actor, client session
pair, message envelope codec) against a shallow embedding of its Go source.

Modelling conventions:
* Go pointers (`*Client`) are modelled by a numeric `id` field; the room's
  `clients map[*Client]struct{}` becomes a list of client states.
* Channels: the bounded `send` channel (capacity 256) is a list plus a
  `sendClosed` flag; a non-blocking `select`/`default` send succeeds exactly
  when the buffer holds fewer than 256 entries.  The blocking sends used by
  `Room.broadcast` are modelled as plain appends (the enqueue that takes place
  once capacity allows); capacity only matters on the non-blocking fan-out
  path inside the `forward` case of `Room.run`.
* `net.Conn` is modelled by a `connOpen` flag together with `written`, the
  list of byte strings written to the connection.
* `encoding/json` on the fixed `Message` struct is modelled at the level of a
  JSON value tree: objects with last-key-wins field lookup, unknown fields
  ignored, missing fields left at their zero values, type mismatches
  reported as errors.  `time.Time` round-trips through its RFC3339Nano wire
  string losslessly at nanosecond resolution, so the timestamp leaf is
  modelled as a lossless integer instant.
* File I/O (`saveMessageToFile`, `sendHistory`) and logging are external
  side effects outside the membership/fan-out state and are not modelled.
-/

/-- `const maxClients = 10` from room.go. -/
def maxClients : Nat := 10

/-- `const maxHistory = 100` from room.go (unused by the control loop). -/
def maxHistory : Nat := 100

/-- `const messageBufferSize = 256` from client.go: capacity of `send`. -/
def messageBufferSize : Nat := 256

/-- `NotificationType = "Notification"` from message.go. -/
def NotificationType : String := "Notification"

/-- `UserMessageType = "UserMessage"` from message.go. -/
def UserMessageType : String := "UserMessage"

/-- ANSI reset code from the color constants file. -/
def ColorReset : String := "\x1b[0m"

/-- ANSI bright-white code from the color constants file. -/
def ColorWhiteText : String := "\x1b[1;97m"

/-- ANSI blinking-green code from the color constants file. -/
def ColorNotification : String := "\x1b[5;92m"

/-- JSON value trees, the model of the byte strings produced and consumed by
`encoding/json` for the `Message` struct. -/
inductive Json where
  | null : Json
  | str (s : String) : Json
  | num (n : Int) : Json
  | obj (fields : List (String × Json)) : Json

/-- The `Message` struct of message.go: content, sender, timestamp, type,
with json tags "content", "sender", "timestamp", "type".  `time.Time` is
modelled as an integer instant. -/
structure Message where
  content : String
  sender : String
  timestamp : Int
  type : String
deriving DecidableEq

/-- `Message.ToJSON` (message.go): `json.Marshal` of the struct, i.e. an
object with the four tagged fields. -/
def Message.ToJSON (m : Message) : Json :=
  Json.obj [("content", Json.str m.content), ("sender", Json.str m.sender),
            ("timestamp", Json.num m.timestamp), ("type", Json.str m.type)]

/-- Field lookup in a JSON object, last occurrence of the key winning, as
`encoding/json` overwrites on duplicate keys. -/
def getField : List (String × Json) → String → Option Json
  | [], _ => none
  | (k, v) :: rest, key =>
    match getField rest key with
    | some w => some w
    | none => if k = key then some v else none

/-- Decoding of a `string`-typed struct field: absent or JSON null leaves the
zero value, a JSON string is taken, anything else is a type error. -/
def decodeStringField : Option Json → Except String String
  | none => Except.ok ""
  | some Json.null => Except.ok ""
  | some (Json.str s) => Except.ok s
  | some _ => Except.error "cannot unmarshal field into string"

/-- Decoding of the `time.Time` field via its lossless instant leaf: absent
or JSON null leaves the zero instant, anything but the instant leaf is a
type error. -/
def decodeTimeField : Option Json → Except String Int
  | none => Except.ok 0
  | some Json.null => Except.ok 0
  | some (Json.num n) => Except.ok n
  | some _ => Except.error "cannot unmarshal field into time.Time"

/-- `FromJSON` (message.go): `json.Unmarshal` into a fresh `Message`.  A JSON
null leaves the zero Message, a non-object is a type error, an object has its
four tagged fields extracted (missing ones staying zero). -/
def FromJSON (j : Json) : Except String Message :=
  match j with
  | Json.null => Except.ok { content := "", sender := "", timestamp := 0, type := "" }
  | Json.obj fields =>
    match decodeStringField (getField fields "content"),
          decodeStringField (getField fields "sender"),
          decodeTimeField (getField fields "timestamp"),
          decodeStringField (getField fields "type") with
    | Except.ok c, Except.ok s, Except.ok t, Except.ok ty =>
        Except.ok { content := c, sender := s, timestamp := t, type := ty }
    | Except.error e, _, _, _ => Except.error e
    | _, Except.error e, _, _ => Except.error e
    | _, _, Except.error e, _ => Except.error e
    | _, _, _, Except.error e => Except.error e
  | _ => Except.error "cannot unmarshal into Message"

/-- Go's layout-based rendering `Timestamp.Format("2006-01-02 15:04:05")`,
modelled as a decimal rendering of the instant. -/
def formatTimestamp (t : Int) : String := toString t

/-- `Message.formatAndConvertToBytes` (message.go): notifications are the
pre-rendered content wrapped in the notification color; anything else is the
user-message layout with timestamp, sender and content. -/
def Message.formatAndConvertToBytes (m : Message) : String :=
  if m.type = NotificationType then
    "\n" ++ ColorNotification ++ m.content ++ ColorReset
  else
    "\n⏳ " ++ ColorWhiteText ++ "[" ++ formatTimestamp m.timestamp ++ "] 🤖 "
      ++ m.sender ++ " 💬 " ++ m.content ++ ColorReset ++ "\n"

/-- The `Client` struct of client.go.  `id` models the Go pointer identity;
`send`/`sendClosed` model the buffered channel; `connOpen` models
`conn != nil` (and the conn not yet closed); `written` records the bytes
written to the connection; `hasRoom` models `room != nil`. -/
structure Client where
  id : Nat
  username : String
  prompt : String
  send : List Json
  sendClosed : Bool
  connOpen : Bool
  written : List String
  hasRoom : Bool

/-- The observable outcome of one call to `Client.close`: the updated client,
whether this call closed the connection, and whether this call sent on the
room's `leave` channel. -/
structure CloseEffect where
  client : Client
  connClosed : Bool
  leaveSignaled : Bool

/-- `Client.close` (client.go): closes the conn only if it is non-nil (and
nils it), then, whenever `room != nil`, sends itself on `room.leave`.  The
room reference is never cleared. -/
def Client.close (c : Client) : CloseEffect :=
  { client := if c.connOpen then { c with connOpen := false } else c,
    connClosed := c.connOpen,
    leaveSignaled := c.hasRoom }

/-- `bytes.TrimSpace` on one input line, modelled on the character list
(Go trims Unicode white space; the white-space classes agree on the ASCII
space, tab and line-break characters that line input produces). -/
def trimSpace (s : String) : String :=
  String.mk (((s.toList.dropWhile Char.isWhitespace).reverse.dropWhile
    Char.isWhitespace).reverse)

/-- One iteration of `Client.read` (client.go) on an accepted line: trim, skip
if empty, otherwise wrap into a `Message` whose `Type` field is left at its
zero value, and submit `message.ToJSON()` to the room's forward channel. -/
def Client.readLine (username : String) (now : Int) (line : String) : Option Json :=
  let msg := trimSpace line
  if msg = "" then none
  else some (Message.ToJSON { content := msg, sender := username, timestamp := now, type := "" })

/-- One iteration of `Client.write` (client.go) on one raw envelope from the
mailbox: parse failures are skipped, envelopes whose sender equals this
client's own username are dropped, anything else is rendered and written to
the connection followed by the prompt. -/
def Client.writeOne (c : Client) (raw : Json) : Client :=
  match FromJSON raw with
  | Except.error _ => c
  | Except.ok msg =>
    if msg.sender = c.username then c
    else { c with written := c.written ++ [msg.formatAndConvertToBytes, c.prompt] }

/-- The `Client.write` loop draining the whole mailbox through
`Client.writeOne`. -/
def Client.writeAll (c : Client) : Client :=
  c.send.foldl Client.writeOne { c with send := [] }

/-- The `Room` struct of room.go restricted to control-loop state: current
members, every session the room has dropped or rejected (the Go objects
outlive membership; `gone` records their states), and whether the control
loop is still running. -/
structure Room where
  name : String
  members : List Client
  gone : List Client
  running : Bool

/-- `NewRoom` (room.go): empty membership, control loop live. -/
def NewRoom (name : String) : Room :=
  { name := name, members := [], gone := [], running := true }

/-- The join notification built in the `join` case of `Room.run`; its
timestamp is never set and stays at the zero value. -/
def joinedMessage (username : String) : Message :=
  { content := "📢 " ++ username ++ " has joined the room.\n",
    sender := username, timestamp := 0, type := NotificationType }

/-- The leave notification built in the `leave` case of `Room.run`. -/
def leftMessage (username : String) : Message :=
  { content := "📢 " ++ username ++ " has left the room.\n",
    sender := username, timestamp := 0, type := NotificationType }

/-- The capacity-exceeded notice written to a rejected joiner. -/
def roomFullMessage (name : String) : String :=
  "❌ Room " ++ name ++ " is full. Cannot join.\n"

/-- `Room.broadcast` (room.go): marshal the message once, then send it to
every current client except those whose username equals the sender.  The
channel send is blocking and is modelled as an append. -/
def Room.broadcast (msg : Message) (clients : List Client) : List Client :=
  clients.map fun c =>
    if c.username ≠ msg.sender then { c with send := c.send ++ [msg.ToJSON] } else c

/-- `Room.removeClient` (room.go): if the pointer is a current member, delete
it, close its send channel and close/nil its conn; otherwise do nothing.
Returns the remaining members and the removed client's state, if any. -/
def removeClient (id : Nat) : List Client → List Client × Option Client
  | [] => ([], none)
  | c :: cs =>
    if c.id = id then (cs, some { c with sendClosed := true, connOpen := false })
    else
      let (ms, r) := removeClient id cs
      (c :: ms, r)

/-- The fan-out loop of the `forward` case of `Room.run`: for each member a
non-blocking enqueue of the raw bytes; a member whose buffer is full is
removed via `removeClient` (send closed, conn closed).  Returns surviving
members and evicted members. -/
def forwardToClients (raw : Json) : List Client → List Client × List Client
  | [] => ([], [])
  | c :: cs =>
    let (ms, gs) := forwardToClients raw cs
    if c.send.length < messageBufferSize then
      ({ c with send := c.send ++ [raw] } :: ms, gs)
    else
      (ms, { c with sendClosed := true, connOpen := false } :: gs)

/-- The four control events received by `Room.run`'s select.  `join` and
`leave` carry the client (the Go channels carry the `*Client`). -/
inductive Event where
  | join (c : Client)
  | leave (c : Client)
  | forward (raw : Json)
  | quit

/-- One dispatch of `Room.run`'s select (room.go):
* `join`: at `maxClients` members the joiner is written the capacity notice
  and closed (its `close` also signals `leave`, an event a schedule may
  contain later) and is never added; otherwise it is added, written its
  prompt, and the joined notification is broadcast (the new member filtered
  out by its own username).
* `leave`: `removeClient`, then — unconditionally — broadcast of the left
  notification to the now-current members.
* `forward`: unmarshal, dropping the event on error; on success the fan-out
  with eviction of full-mailbox members (history file append not modelled).
* `quit`: close every member's send channel, clear membership, loop returns. -/
def Room.step (r : Room) (e : Event) : Room :=
  match e with
  | Event.join c =>
    if maxClients ≤ r.members.length then
      { r with gone :=
          { c with written := c.written ++ [roomFullMessage r.name], connOpen := false } :: r.gone }
    else
      let c2 := { c with written := c.written ++ [c.prompt] }
      { r with members := Room.broadcast (joinedMessage c.username) (r.members ++ [c2]) }
  | Event.leave c =>
    let res := removeClient c.id r.members
    { r with members := Room.broadcast (leftMessage c.username) res.1,
             gone := res.2.toList ++ r.gone }
  | Event.forward raw =>
    match FromJSON raw with
    | Except.error _ => r
    | Except.ok _ =>
      let (ms, gs) := forwardToClients raw r.members
      { r with members := ms, gone := gs ++ r.gone }
  | Event.quit =>
    { r with members := [],
             gone := r.members.map (fun c => { c with sendClosed := true }) ++ r.gone,
             running := false }

/-- `Room.run` over a schedule of control events: events are dispatched one
at a time while the loop runs; after `quit` has made the loop return, no
further event is processed. -/
def Room.run (r : Room) : List Event → Room
  | [] => r
  | e :: es => if r.running then Room.run (Room.step r e) es else r

/-! ### Helper lemmas shared by the claim theorems -/

/-- Round trip of the envelope codec: decoding an encoded `Message` restores
it exactly. -/
theorem FromJSON_ToJSON_eq (m : Message) : FromJSON (Message.ToJSON m) = Except.ok m := rfl

/-- Once the control loop has returned, a schedule of further events leaves
the room untouched. -/
theorem run_not_running (r : Room) (h : r.running = false) (evs : List Event) :
    Room.run r evs = r := by
  cases evs with
  | nil => rfl
  | cons e es => simp [Room.run, h]

/-- Broadcasting never changes the number of members. -/
theorem broadcast_length (msg : Message) (cs : List Client) :
    (Room.broadcast msg cs).length = cs.length := by
  simp [Room.broadcast]

/-- Broadcasting never changes the member identities. -/
theorem broadcast_map_id (msg : Message) (cs : List Client) :
    (Room.broadcast msg cs).map Client.id = cs.map Client.id := by
  simp only [Room.broadcast, List.map_map]
  induction cs with
  | nil => rfl
  | cons c cs ih =>
    simp only [List.map_cons, ih]
    by_cases h : c.username = msg.sender <;> simp [h]

/-- Mailboxes after a broadcast: exactly the members whose username differs
from the sender have the encoded message appended. -/
theorem broadcast_map_send (msg : Message) (cs : List Client) :
    (Room.broadcast msg cs).map Client.send =
      cs.map (fun c => if c.username = msg.sender then c.send else c.send ++ [msg.ToJSON]) := by
  simp only [Room.broadcast, List.map_map]
  induction cs with
  | nil => rfl
  | cons c cs ih =>
    simp only [List.map_cons, ih]
    by_cases h : c.username = msg.sender <;> simp [h]

/-- A member whose username equals the sender survives a broadcast
unchanged. -/
theorem mem_broadcast_of_eq (msg : Message) (cs : List Client) (c : Client)
    (hc : c ∈ cs) (h : c.username = msg.sender) : c ∈ Room.broadcast msg cs := by
  unfold Room.broadcast
  refine List.mem_map.mpr ⟨c, hc, ?_⟩
  simp [h]

/-- A member whose username differs from the sender gets the encoded message
enqueued by a broadcast. -/
theorem mem_broadcast_of_ne (msg : Message) (cs : List Client) (c : Client)
    (hc : c ∈ cs) (h : c.username ≠ msg.sender) :
    { c with send := c.send ++ [msg.ToJSON] } ∈ Room.broadcast msg cs := by
  unfold Room.broadcast
  refine List.mem_map.mpr ⟨c, hc, ?_⟩
  simp [h]

/-- Removal never grows the membership. -/
theorem removeClient_fst_length_le (id : Nat) (cs : List Client) :
    (removeClient id cs).1.length ≤ cs.length := by
  induction cs with
  | nil => simp [removeClient]
  | cons c cs ih =>
    by_cases h : c.id = id
    · simp [removeClient, h]
    · simp only [removeClient, h, if_false, List.length_cons]
      omega

/-- Removing a non-member is a no-op and removes nobody. -/
theorem removeClient_not_mem (id : Nat) (cs : List Client)
    (h : id ∉ cs.map Client.id) : removeClient id cs = (cs, none) := by
  induction cs with
  | nil => rfl
  | cons c cs ih =>
    simp only [List.map_cons, List.mem_cons] at h
    push_neg at h
    have h1 : c.id ≠ id := fun hh => h.1 hh.symm
    simp [removeClient, h1, ih h.2]

/-- The identities surviving a removal are the original ones with the first
occurrence of the removed identity erased. -/
theorem removeClient_map_id (id : Nat) (cs : List Client) :
    (removeClient id cs).1.map Client.id = (cs.map Client.id).erase id := by
  induction cs with
  | nil => rfl
  | cons c cs ih =>
    by_cases h : c.id = id
    · simp [removeClient, h, List.erase_cons_head]
    · simp [removeClient, h, List.erase_cons_tail, ih]

/-- Removing a present member yields exactly that member with its send
channel closed and its connection closed. -/
theorem removeClient_mem (id : Nat) (cs : List Client)
    (h : id ∈ cs.map Client.id) :
    ∃ x, (removeClient id cs).2 = some x ∧ x.id = id ∧ x.sendClosed = true ∧
      x.connOpen = false := by
  induction cs with
  | nil => simp at h
  | cons c cs ih =>
    by_cases hc : c.id = id
    · exact ⟨{ c with sendClosed := true, connOpen := false },
        by simp [removeClient, hc], hc, rfl, rfl⟩
    · simp only [List.map_cons, List.mem_cons] at h
      rcases h with h | h
      · exact absurd h.symm hc
      · obtain ⟨x, hx⟩ := ih h
        exact ⟨x, by simp [removeClient, hc, hx.1], hx.2⟩

/-- The fan-out loop keeps exactly the members with buffer space, appending
the raw bytes to them, and evicts the rest with their channels closed. -/
theorem forwardToClients_eq (raw : Json) (cs : List Client) :
    forwardToClients raw cs =
      ((cs.filter (fun c => decide (c.send.length < messageBufferSize))).map
          (fun c => { c with send := c.send ++ [raw] }),
       (cs.filter (fun c => decide (messageBufferSize ≤ c.send.length))).map
          (fun c => { c with sendClosed := true, connOpen := false })) := by
  induction cs with
  | nil => rfl
  | cons c cs ih =>
    by_cases h : c.send.length < messageBufferSize
    · simp [forwardToClients, ih, h, List.filter_cons, Nat.not_le.mpr h]
    · simp [forwardToClients, ih, h, List.filter_cons, Nat.not_lt.mp h]

/-- Members after a decodable forward event: those with buffer space, the
raw bytes enqueued. -/
theorem step_forward_members (r : Room) (raw : Json) (msg : Message)
    (h : FromJSON raw = Except.ok msg) :
    (Room.step r (Event.forward raw)).members =
      (r.members.filter (fun c => decide (c.send.length < messageBufferSize))).map
        (fun c => { c with send := c.send ++ [raw] }) := by
  simp [Room.step, h, forwardToClients_eq]

/-- Departed sessions after a decodable forward event: the members whose
buffer was full, closed, in front of the previous ones. -/
theorem step_forward_gone (r : Room) (raw : Json) (msg : Message)
    (h : FromJSON raw = Except.ok msg) :
    (Room.step r (Event.forward raw)).gone =
      (r.members.filter (fun c => decide (messageBufferSize ≤ c.send.length))).map
        (fun c => { c with sendClosed := true, connOpen := false }) ++ r.gone := by
  simp [Room.step, h, forwardToClients_eq]

/-- Every event leaves the previously departed sessions untouched: the new
`gone` list extends the old one in front. -/
theorem step_gone_suffix (r : Room) (e : Event) :
    ∃ pre, (Room.step r e).gone = pre ++ r.gone := by
  cases e with
  | join c =>
    by_cases h : maxClients ≤ r.members.length
    · exact ⟨[{ c with written := c.written ++ [roomFullMessage r.name], connOpen := false }],
        by simp [Room.step, h]⟩
    · exact ⟨[], by simp [Room.step, h]⟩
  | leave c =>
    exact ⟨(removeClient c.id r.members).2.toList, by simp [Room.step]⟩
  | forward raw =>
    cases h : FromJSON raw with
    | error e => exact ⟨[], by simp [Room.step, h]⟩
    | ok m => exact ⟨(forwardToClients raw r.members).2, by simp [Room.step, h]⟩
  | quit =>
    exact ⟨r.members.map (fun c => { c with sendClosed := true }), by simp [Room.step]⟩

/-- A single control event preserves the capacity bound. -/
theorem step_members_length_le (r : Room) (e : Event)
    (h : r.members.length ≤ maxClients) :
    (Room.step r e).members.length ≤ maxClients := by
  cases e with
  | join c =>
    by_cases hf : maxClients ≤ r.members.length
    · simpa [Room.step, hf] using h
    · simp only [Room.step, hf, if_false]
      rw [broadcast_length]
      simp only [List.length_append, List.length_cons, List.length_nil]
      omega
  | leave c =>
    simp only [Room.step]
    rw [broadcast_length]
    have := removeClient_fst_length_le c.id r.members
    omega
  | forward raw =>
    cases hj : FromJSON raw with
    | error e => simpa [Room.step, hj] using h
    | ok m =>
      rw [step_forward_members r raw m hj, List.length_map]
      have := List.length_filter_le
        (fun c => decide (c.send.length < messageBufferSize)) r.members
      omega
  | quit => simp [Room.step]

/-- Any schedule of control events preserves the capacity bound. -/
theorem run_members_length_le (evs : List Event) (r : Room)
    (h : r.members.length ≤ maxClients) :
    (Room.run r evs).members.length ≤ maxClients := by
  induction evs generalizing r with
  | nil => simpa [Room.run] using h
  | cons e es ih =>
    by_cases hr : r.running = true
    · simpa [Room.run, hr] using ih _ (step_members_length_le r e h)
    · simpa [Room.run, hr] using h

/-- A join below capacity adds the client and broadcasts the joined
notification over the extended membership. -/
theorem step_join_not_full (r : Room) (c : Client) (h : ¬ maxClients ≤ r.members.length) :
    (Room.step r (Event.join c)).members =
      Room.broadcast (joinedMessage c.username)
        (r.members ++ [{ c with written := c.written ++ [c.prompt] }]) := by
  simp [Room.step, h]

/-- The outbound loop never changes the session's identity. -/
theorem writeOne_username (c : Client) (raw : Json) :
    (Client.writeOne c raw).username = c.username := by
  unfold Client.writeOne
  cases FromJSON raw with
  | error e => rfl
  | ok msg => by_cases h : msg.sender = c.username <;> simp [h]

/-- The outbound loop only appends to the connection output. -/
theorem writeOne_written_mono (c : Client) (raw : Json) (x : String)
    (h : x ∈ c.written) : x ∈ (Client.writeOne c raw).written := by
  unfold Client.writeOne
  cases FromJSON raw with
  | error e => exact h
  | ok msg => by_cases hs : msg.sender = c.username <;> simp [hs, h]

/-- Draining any mailbox only appends to the connection output. -/
theorem foldl_writeOne_written_mono (l : List Json) (c : Client) (x : String)
    (h : x ∈ c.written) : x ∈ (l.foldl Client.writeOne c).written := by
  induction l generalizing c with
  | nil => exact h
  | cons a t ih => exact ih _ (writeOne_written_mono _ _ _ h)

/-- Self-suppression: an envelope whose sender equals the session's own
username is dropped by the outbound loop without any effect. -/
theorem writeOne_self (c : Client) (raw : Json) (msg : Message)
    (hdec : FromJSON raw = Except.ok msg) (h : msg.sender = c.username) :
    Client.writeOne c raw = c := by
  simp [Client.writeOne, hdec, h]

/-- Draining a mailbox that contains a decodable envelope from another
sender renders that envelope to the connection. -/
theorem foldl_writeOne_renders (l : List Json) (c : Client) (raw : Json) (msg : Message)
    (hmem : raw ∈ l) (hdec : FromJSON raw = Except.ok msg)
    (hne : msg.sender ≠ c.username) :
    msg.formatAndConvertToBytes ∈ (l.foldl Client.writeOne c).written := by
  induction l generalizing c with
  | nil => simp at hmem
  | cons a t ih =>
    rcases List.mem_cons.mp hmem with h | h
    · subst h
      rw [List.foldl_cons]
      apply foldl_writeOne_written_mono
      simp [Client.writeOne, hdec, hne]
    · rw [List.foldl_cons]
      apply ih _ h
      rw [writeOne_username]
      exact hne

/-- `Client.writeAll` version of `foldl_writeOne_renders`. -/
theorem writeAll_renders (c : Client) (raw : Json) (msg : Message)
    (hmem : raw ∈ c.send) (hdec : FromJSON raw = Except.ok msg)
    (hne : msg.sender ≠ c.username) :
    msg.formatAndConvertToBytes ∈ (Client.writeAll c).written :=
  foldl_writeOne_renders c.send _ raw msg hmem hdec hne

/-! ### Concrete sessions and rooms used by the witnesses -/

/-- A fresh session with the given pointer identity and username. -/
def mkClient (i : Nat) (u : String) : Client :=
  { id := i, username := u, prompt := "> ", send := [], sendClosed := false,
    connOpen := true, written := [], hasRoom := true }

/-- A room at capacity: ten members. -/
def fullRoomW : Room :=
  { name := "FULL", members := (List.range maxClients).map (fun i => mkClient i (toString i)),
    gone := [], running := true }

/-- The eleventh session, attempting to join the full room. -/
def newcomerW : Client := mkClient 99 "speedy"

/-- Session "alice". -/
def aliceW : Client := mkClient 0 "alice"

/-- Session "bobby". -/
def bobbyW : Client := mkClient 1 "bobby"

/-- A second, distinct session also named "alice". -/
def alice2W : Client := mkClient 5 "alice"

/-- Session "carol". -/
def carolC : Client :=
  { id := 7, username := "carol", prompt := "", send := [], sendClosed := false,
    connOpen := true, written := [], hasRoom := true }

/-- A two-member room holding alice and bobby. -/
def wRoom : Room := { name := "W", members := [aliceW, bobbyW], gone := [], running := true }

/-- A one-member room holding only alice. -/
def leaveRoom1 : Room := { name := "R", members := [aliceW], gone := [], running := true }

/-- A two-member room holding alice and bobby, from which bobby leaves. -/
def leaveRoom2 : Room := { name := "R", members := [aliceW, bobbyW], gone := [], running := true }

/-- A user message sent by alice. -/
def msgW : Message := { content := "hi", sender := "alice", timestamp := 3, type := "" }

/-- A session whose mailbox is completely full. -/
def fullMailC : Client :=
  { id := 2, username := "cindy", prompt := "", send := List.replicate messageBufferSize Json.null,
    sendClosed := false, connOpen := true, written := [], hasRoom := true }

/-- A two-member room in which cindy's mailbox is full. -/
def backRoom : Room := { name := "B", members := [aliceW, fullMailC], gone := [], running := true }

/-- A user message sent by alice into `backRoom`. -/
def msgB : Message := { content := "yo", sender := "alice", timestamp := 1, type := "" }

/-! ### The claims -/

/-- C1: for every schedule of control events the membership of a room started
by `NewRoom` never exceeds `maxClients` (10); and a join processed when the
room already holds at least `maxClients` members leaves the membership
unchanged — the requester is written the capacity-exceeded notice, its
connection is closed, and it is never added. -/
theorem C1_capacity_invariant :
    (∀ name evs, ((NewRoom name).run evs).members.length ≤ maxClients) ∧
    (∀ r c, maxClients ≤ r.members.length →
      (Room.step r (Event.join c)).members = r.members ∧
      (Room.step r (Event.join c)).gone =
        { c with written := c.written ++ [roomFullMessage r.name], connOpen := false } :: r.gone) := by
  constructor
  · intro name evs
    apply run_members_length_le
    simp [NewRoom]
  · intro r c h
    constructor <;> simp [Room.step, h]

/-- Witness for C1: the full ten-member room rejects the eleventh joiner. -/
theorem C1_capacity_invariant_witness :
    maxClients ≤ fullRoomW.members.length ∧
    (Room.step fullRoomW (Event.join newcomerW)).members = fullRoomW.members ∧
    (Room.step fullRoomW (Event.join newcomerW)).gone =
      { newcomerW with written := newcomerW.written ++ [roomFullMessage fullRoomW.name], connOpen := false } :: fullRoomW.gone :=
  ⟨by decide, C1_capacity_invariant.2 fullRoomW newcomerW (by decide)⟩

/-- C2: when member M's user message is forwarded through the room (room-
scoped identities being distinct, as the spec's data model stipulates), every
other member whose mailbox accepts the enqueue receives the raw envelope and,
on draining its mailbox, has the rendered message written to its connection;
and the outbound loop drops any envelope whose sender equals the session's
own identity, so M never has its own message rendered back. -/
theorem C2_broadcast_delivery (r : Room) (M : Client) (msg : Message)
    (_hM : M ∈ r.members) (hs : msg.sender = M.username)
    (hdist : ∀ c ∈ r.members, c ≠ M → c.username ≠ M.username) :
    (∀ c ∈ r.members, c ≠ M → c.send.length < messageBufferSize →
      { c with send := c.send ++ [Message.ToJSON msg] } ∈
        (Room.step r (Event.forward (Message.ToJSON msg))).members ∧
      msg.formatAndConvertToBytes ∈
        (Client.writeAll { c with send := c.send ++ [Message.ToJSON msg] }).written) ∧
    (∀ s : Client, s.username = msg.sender → Client.writeOne s (Message.ToJSON msg) = s) := by
  constructor
  · intro c hc hne hsp
    have hcu : c.username ≠ msg.sender := by
      rw [hs]; exact hdist c hc hne
    constructor
    · rw [step_forward_members r _ msg (FromJSON_ToJSON_eq msg)]
      refine List.mem_map.mpr ⟨c, ?_, rfl⟩
      exact List.mem_filter.mpr ⟨hc, by simpa using hsp⟩
    · refine writeAll_renders _ (Message.ToJSON msg) msg ?_ (FromJSON_ToJSON_eq msg) ?_
      · simp
      · exact fun hh => hcu hh.symm
  · intro s hsu
    exact writeOne_self s _ msg (FromJSON_ToJSON_eq msg) hsu.symm

/-- Witness for C2: alice's message reaches bobby's mailbox and is rendered
when bobby drains it. -/
theorem C2_broadcast_delivery_witness :
    aliceW ∈ wRoom.members ∧
    ({ bobbyW with send := bobbyW.send ++ [Message.ToJSON msgW] } ∈
        (Room.step wRoom (Event.forward (Message.ToJSON msgW))).members ∧
     msgW.formatAndConvertToBytes ∈
        (Client.writeAll { bobbyW with send := bobbyW.send ++ [Message.ToJSON msgW] }).written) := by
  have hd : ∀ c ∈ wRoom.members, c ≠ aliceW → c.username ≠ aliceW.username := by
    intro c hc hne
    rcases List.mem_cons.mp hc with h | h
    · exact absurd h hne
    · rcases List.mem_cons.mp h with h2 | h2
      · subst h2; decide
      · simp at h2
  have hb : bobbyW ≠ aliceW := fun h => absurd (congrArg Client.username h) (by decide)
  refine ⟨List.mem_cons_self _ _, ?_⟩
  exact (C2_broadcast_delivery wRoom aliceW msgW (List.mem_cons_self _ _) rfl hd).1
    bobbyW (by simp [wRoom]) hb (by decide)

/-- C3 counterexample: in a room with members alice and bobby, two Leave
events for bobby (the second processed when bobby is no longer a member)
leave alice with TWO "has left" notification envelopes in her mailbox — the
second Leave is not a silent no-op but broadcasts the notification again. -/
theorem C3_leave_counterexample :
    ((leaveRoom2.run [Event.leave bobbyW, Event.leave bobbyW]).members.map Client.send)
      = [[(leftMessage "bobby").ToJSON, (leftMessage "bobby").ToJSON]] := rfl

/-- C3 amended: the removal and the channel/connection close of a Leave are
idempotent — a Leave for a non-member removes and closes nothing (so a double
Leave cannot double-close or panic), and a Leave for a member removes and
closes exactly that member — but the "has left" notification is broadcast on
every Leave event regardless of membership, so two Leaves produce two
notifications and a non-member Leave is not silent. -/
theorem C3_leave_amended :
    (∀ r c, c.id ∉ r.members.map Client.id →
      Room.step r (Event.leave c) =
        { r with members := Room.broadcast (leftMessage c.username) r.members }) ∧
    (∀ r c, c.id ∈ r.members.map Client.id →
      (∃ x, (Room.step r (Event.leave c)).gone = x :: r.gone ∧ x.id = c.id ∧
        x.sendClosed = true ∧ x.connOpen = false) ∧
      ((r.members.map Client.id).Nodup →
        c.id ∉ (Room.step r (Event.leave c)).members.map Client.id)) := by
  constructor
  · intro r c h
    simp [Room.step, removeClient_not_mem c.id r.members h]
  · intro r c h
    constructor
    · obtain ⟨x, hx1, hx2, hx3, hx4⟩ := removeClient_mem c.id r.members h
      exact ⟨x, by simp [Room.step, hx1], hx2, hx3, hx4⟩
    · intro hnd
      simp only [Room.step]
      rw [broadcast_map_id, removeClient_map_id]
      exact hnd.not_mem_erase

/-- Witness for the amended C3: a Leave for bobby, who is not a member of the
one-member room, removes nobody yet still broadcasts the notification. -/
theorem C3_leave_amended_witness :
    bobbyW.id ∉ leaveRoom1.members.map Client.id ∧
    Room.step leaveRoom1 (Event.leave bobbyW) =
      { leaveRoom1 with members := Room.broadcast (leftMessage bobbyW.username) leaveRoom1.members } :=
  ⟨by decide, C3_leave_amended.1 leaveRoom1 bobbyW (by decide)⟩

/-- C4: a forward event whose bytes decode removes exactly the members whose
mailbox is full (each with its channel closed and its connection closed)
while every member with buffer space gets the broadcast enqueued, and no
event ever touches the sessions the room has already dropped. -/
theorem C4_backpressure_eviction :
    (∀ raw msg r, FromJSON raw = Except.ok msg →
      (Room.step r (Event.forward raw)).members =
        (r.members.filter (fun c => decide (c.send.length < messageBufferSize))).map
          (fun c => { c with send := c.send ++ [raw] }) ∧
      (Room.step r (Event.forward raw)).gone =
        (r.members.filter (fun c => decide (messageBufferSize ≤ c.send.length))).map
          (fun c => { c with sendClosed := true, connOpen := false }) ++ r.gone) ∧
    (∀ r e, ∃ pre, (Room.step r e).gone = pre ++ r.gone) :=
  ⟨fun raw msg r h => ⟨step_forward_members r raw msg h, step_forward_gone r raw msg h⟩,
   step_gone_suffix⟩

/-- Witness for C4: in the room where cindy's mailbox is full, forwarding
alice's message evicts cindy and delivers to alice. -/
theorem C4_backpressure_eviction_witness :
    FromJSON (Message.ToJSON msgB) = Except.ok msgB ∧
    ((Room.step backRoom (Event.forward (Message.ToJSON msgB))).members =
        (backRoom.members.filter (fun c => decide (c.send.length < messageBufferSize))).map
          (fun c => { c with send := c.send ++ [Message.ToJSON msgB] }) ∧
     (Room.step backRoom (Event.forward (Message.ToJSON msgB))).gone =
        (backRoom.members.filter (fun c => decide (messageBufferSize ≤ c.send.length))).map
          (fun c => { c with sendClosed := true, connOpen := false }) ++ backRoom.gone) :=
  ⟨rfl, C4_backpressure_eviction.1 (Message.ToJSON msgB) msgB backRoom rfl⟩

/-- C5: decoding the bytes produced by encoding any envelope returns the
envelope unchanged and without error — content, sender, timestamp and kind
all round-trip. -/
theorem C5_codec_roundtrip (m : Message) : FromJSON (Message.ToJSON m) = Except.ok m :=
  FromJSON_ToJSON_eq m

/-- C6 counterexample: calling close twice on a session associated with a
room signals the room's leave channel on the second call as well — the claim
that only the first call performs work and leave is signaled exactly once is
false. -/
theorem C6_close_counterexample :
    (Client.close carolC).leaveSignaled = true ∧
    (Client.close (Client.close carolC).client).leaveSignaled = true := ⟨rfl, rfl⟩

/-- C6 amended: close closes the connection handle at most once (a second
call finds the handle nil and is a no-op on the connection), but it signals
the room's leave channel on EVERY call while the room reference is non-nil,
and that reference is never cleared — so leave is signaled once per call,
not exactly once. -/
theorem C6_close_amended (c : Client) :
    (Client.close c).connClosed = c.connOpen ∧
    (Client.close c).client.connOpen = false ∧
    (Client.close (Client.close c).client).connClosed = false ∧
    (Client.close c).leaveSignaled = c.hasRoom ∧
    (Client.close c).client.hasRoom = c.hasRoom := by
  cases h : c.connOpen <;> simp [Client.close, h]

/-- C7: a Quit event closes every member's mailbox, empties the membership
and stops the control loop; once stopped, no schedule of further Join, Leave
or Forward events is ever processed. -/
theorem C7_quit_terminal (r : Room) (evs : List Event) (h : r.running = true) :
    Room.run r (Event.quit :: evs) = Room.step r Event.quit ∧
    (Room.step r Event.quit).members = [] ∧
    (Room.step r Event.quit).running = false ∧
    (Room.step r Event.quit).gone =
      r.members.map (fun c => { c with sendClosed := true }) ++ r.gone ∧
    (∀ evs2, Room.run (Room.step r Event.quit) evs2 = Room.step r Event.quit) := by
  have hrun : (Room.step r Event.quit).running = false := by simp [Room.step]
  refine ⟨?_, by simp [Room.step], hrun, by simp [Room.step],
    fun evs2 => run_not_running _ hrun evs2⟩
  simp only [Room.run, h, if_true]
  exact run_not_running _ hrun evs

/-- Witness for C7: quitting the one-member room drops alice with her mailbox
closed and a later join is not processed. -/
theorem C7_quit_terminal_witness :
    leaveRoom1.running = true ∧
    (Room.run leaveRoom1 [Event.quit, Event.join carolC] = Room.step leaveRoom1 Event.quit ∧
     (Room.step leaveRoom1 Event.quit).members = [] ∧
     (Room.step leaveRoom1 Event.quit).running = false ∧
     (Room.step leaveRoom1 Event.quit).gone =
       leaveRoom1.members.map (fun c => { c with sendClosed := true }) ++ leaveRoom1.gone ∧
     (∀ evs2, Room.run (Room.step leaveRoom1 Event.quit) evs2 = Room.step leaveRoom1 Event.quit)) :=
  ⟨rfl, C7_quit_terminal leaveRoom1 [Event.join carolC] rfl⟩

/-- C8 counterexample: the envelope built by the read loop for the line
"hello\n" carries kind "" — the zero value — not `UserMessageType`, so the
claim that the wrapped envelope has kind UserMessage is false. -/
theorem C8_read_counterexample :
    Client.readLine "alice" 0 "hello\n" =
      some (Message.ToJSON { content := "hello", sender := "alice", timestamp := 0, type := "" }) ∧
    ("" : String) ≠ UserMessageType := ⟨rfl, by decide⟩

/-- C8 amended: each accepted line is whitespace-trimmed; an empty trimmed
line is ignored; a non-empty one is wrapped into an envelope with sender =
the session's identity, timestamp = now, and kind left at the zero value ""
(not UserMessageType; rendering treats any non-Notification kind as a user
message) and submitted encoded to the room's forward channel, decodable back
to exactly that envelope. -/
theorem C8_read_amended (username : String) (now : Int) (line : String) :
    (trimSpace line = "" → Client.readLine username now line = none) ∧
    (trimSpace line ≠ "" →
      Client.readLine username now line =
        some (Message.ToJSON
          { content := trimSpace line, sender := username, timestamp := now, type := "" }) ∧
      FromJSON (Message.ToJSON
          { content := trimSpace line, sender := username, timestamp := now, type := "" }) =
        Except.ok { content := trimSpace line, sender := username, timestamp := now, type := "" }) := by
  constructor
  · intro h
    simp [Client.readLine, h]
  · intro h
    exact ⟨by simp [Client.readLine, h], FromJSON_ToJSON_eq _⟩

/-- Witness for the amended C8: a blank line is ignored; " hi\n" is trimmed
and submitted with alice as sender. -/
theorem C8_read_amended_witness :
    (trimSpace "  \n" = "" ∧ Client.readLine "alice" 5 "  \n" = none) ∧
    (trimSpace " hi\n" ≠ "" ∧
     Client.readLine "alice" 5 " hi\n" =
       some (Message.ToJSON
         { content := trimSpace " hi\n", sender := "alice", timestamp := 5, type := "" })) :=
  ⟨⟨rfl, (C8_read_amended "alice" 5 "  \n").1 rfl⟩,
   ⟨by decide, ((C8_read_amended "alice" 5 " hi\n").2 (by decide)).1⟩⟩

/-- C9: `Room.broadcast` enqueues into a member's mailbox exactly when the
member's username differs from the sender, whereas the Forward fan-out
enqueues into every member with buffer space — the sender's own mailbox
included — and self-suppression happens only later, in the member's outbound
write loop. -/
theorem C9_filter_asymmetry :
    (∀ msg cs, (Room.broadcast msg cs).map Client.send =
      cs.map (fun c => if c.username = msg.sender then c.send else c.send ++ [msg.ToJSON])) ∧
    (∀ raw msg r c, FromJSON raw = Except.ok msg → c ∈ r.members →
      c.send.length < messageBufferSize →
      { c with send := c.send ++ [raw] } ∈ (Room.step r (Event.forward raw)).members) ∧
    (∀ s raw msg, FromJSON raw = Except.ok msg → msg.sender = s.username →
      Client.writeOne s raw = s) := by
  refine ⟨broadcast_map_send, ?_, fun s raw msg h1 h2 => writeOne_self s raw msg h1 h2⟩
  intro raw msg r c h hc hsp
  rw [step_forward_members r raw msg h]
  exact List.mem_map.mpr ⟨c, List.mem_filter.mpr ⟨hc, by simpa using hsp⟩, rfl⟩

/-- Witness for C9: the fan-out of alice's own message lands in alice's own
mailbox, and alice's write loop then drops it. -/
theorem C9_filter_asymmetry_witness :
    (FromJSON (Message.ToJSON msgW) = Except.ok msgW ∧ aliceW ∈ wRoom.members ∧
     aliceW.send.length < messageBufferSize) ∧
    { aliceW with send := aliceW.send ++ [Message.ToJSON msgW] } ∈
      (Room.step wRoom (Event.forward (Message.ToJSON msgW))).members ∧
    Client.writeOne aliceW (Message.ToJSON msgW) = aliceW :=
  ⟨⟨rfl, List.mem_cons_self _ _, by decide⟩,
   C9_filter_asymmetry.2.1 _ msgW wRoom aliceW rfl (List.mem_cons_self _ _) (by decide),
   C9_filter_asymmetry.2.2 aliceW _ msgW rfl rfl⟩

/-- C10: Join performs no identity-uniqueness check, so a second session with
an already-present username is admitted whenever the room is below capacity
and both same-named sessions are members; the write loop drops every envelope
whose sender equals the member's own username, and `Room.broadcast` skips
every member whose username equals the notification's sender, so same-named
members never see each other's messages or notifications. -/
theorem C10_duplicate_usernames :
    (∀ r c₁ c₂, c₁ ∈ r.members → c₁.username = c₂.username →
      r.members.length < maxClients →
      c₁.id ∈ (Room.step r (Event.join c₂)).members.map Client.id ∧
      c₂.id ∈ (Room.step r (Event.join c₂)).members.map Client.id) ∧
    (∀ s raw msg, FromJSON raw = Except.ok msg → msg.sender = s.username →
      Client.writeOne s raw = s) ∧
    (∀ msg cs c, c ∈ cs → c.username = msg.sender → c ∈ Room.broadcast msg cs) := by
  refine ⟨?_, fun s raw msg h1 h2 => writeOne_self s raw msg h1 h2,
    fun msg cs c hc h => mem_broadcast_of_eq msg cs c hc h⟩
  intro r c₁ c₂ h1 h2 h3
  rw [step_join_not_full r c₂ (Nat.not_le.mpr h3), broadcast_map_id, List.map_append]
  constructor
  · exact List.mem_append_left _ (List.mem_map_of_mem _ h1)
  · apply List.mem_append_right
    simp

/-- Witness for C10: a second "alice" joins the room that already holds
alice, and both are members afterwards. -/
theorem C10_duplicate_usernames_witness :
    (aliceW ∈ wRoom.members ∧ aliceW.username = alice2W.username ∧
     wRoom.members.length < maxClients) ∧
    (aliceW.id ∈ (Room.step wRoom (Event.join alice2W)).members.map Client.id ∧
     alice2W.id ∈ (Room.step wRoom (Event.join alice2W)).members.map Client.id) :=
  ⟨⟨List.mem_cons_self _ _, rfl, by decide⟩,
   C10_duplicate_usernames.1 wRoom aliceW alice2W (List.mem_cons_self _ _) rfl (by decide)⟩
